import Mathlib

/-!
Verification development for the lcps sliding-window dip-search package.

The Python sources (src/lcps/slidingWindow.py, src/lcps/lcps_batch.py,
src/lcps/lcps_io.py) are embedded shallowly: numpy arrays of floats become
lists of rationals, Python integer arithmetic becomes Nat/Int arithmetic,
and fallible code returns Option/Except.  Each definition mirrors the
corresponding Python function line by line; deviations forced by the
embedding (e.g. a sentinel value where numpy would produce NaN or raise on
an empty array) are noted in the doc comments and are never exercised by
the theorems below.
-/

unseal Rat.add Rat.mul Rat.inv Rat.sub Rat.ofScientific

namespace Lcps

/-- Insert a rational into an ascending-sorted list, keeping it sorted. -/
def insertSorted (x : ℚ) : List ℚ → List ℚ
  | [] => [x]
  | y :: ys => if x ≤ y then x :: y :: ys else y :: insertSorted x ys

/-- Ascending sort (insertion sort).  For a list of rationals the
ascending-sorted rearrangement is unique, so this agrees elementwise with
numpy's sort. -/
def sortAsc (l : List ℚ) : List ℚ := l.foldr insertSorted []

/-- numpy.median of a list of rationals: the middle element of the sorted
list for odd length, the mean of the two middle elements for even length.
numpy returns NaN (with a warning) on an empty array; NaN is not
representable in ℚ, so the empty case returns 0.  No theorem below
evaluates a median of an empty list. -/
def npMedian (l : List ℚ) : ℚ :=
  let s := sortAsc l
  if l.length % 2 = 1 then s.getD (l.length / 2) 0
  else (s.getD (l.length / 2 - 1) 0 + s.getD (l.length / 2) 0) / 2

/-- numpy.min of a list of rationals.  numpy raises on an empty array; the
empty case returns the sentinel 0 and is never exercised by the theorems
below. -/
def npMin : List ℚ → ℚ
  | [] => 0
  | x :: xs => xs.foldl min x

/-- slidingWindow.py lines 44-46: at the boundaries the neighborhood is
expanded, i.e. Nneighb is doubled when `iWinStart < winSize` or
`iWinStart > len(flux) - winSize`.  The Python comparison is on (possibly
negative) integers; `len(flux) < iWinStart + winSize` is the equivalent
form on naturals. -/
def usedNneighb (len iWinStart winSize Nneighb : ℕ) : ℕ :=
  if iWinStart < winSize ∨ len < iWinStart + winSize then 2 * Nneighb else Nneighb

/-- slidingWindow.py lines 49-52: the neighborhood of the current window.
`iMin = max(0, iWinStart - Nn*winSize)` is truncated subtraction on ℕ;
`flux[iMin:iWinStart]` is `(flux.drop iMin).take (iWinStart - iMin)` (here
`iMin ≤ iWinStart` always); the second slice is
`flux[iWinStart + winSize : iMax + 1]` — note the `+ 1` in the source. -/
def neighborhood (flux : List ℚ) (iWinStart winSize Nn : ℕ) : List ℚ :=
  let iMin := iWinStart - Nn * winSize
  let iMax := min flux.length (iWinStart + (1 + Nn) * winSize)
  (flux.drop iMin).take (iWinStart - iMin) ++
    (flux.drop (iWinStart + winSize)).take (iMax + 1 - (iWinStart + winSize))

/-- slidingWindow.py lines 54-57: median and MAD of a given neighborhood,
with the boundary doubling already applied to `Nn`. -/
def get_localMedianCore (flux : List ℚ) (iWinStart winSize Nn : ℕ) : ℚ × ℚ :=
  let nb := neighborhood flux iWinStart winSize Nn
  let localMedian := npMedian nb
  (localMedian, npMedian (nb.map fun x => |x - localMedian|))

/-- slidingWindow.py lines 11-57: `get_localMedian(flux, iWinStart,
winSize, Nneighb)`. -/
def get_localMedian (flux : List ℚ) (iWinStart winSize Nneighb : ℕ) : ℚ × ℚ :=
  get_localMedianCore flux iWinStart winSize
    (usedNneighb flux.length iWinStart winSize Nneighb)

/-- The neighborhood as claim C4 (spec section 4.1) words it: the samples
with indices in `[iMin, windowStart)` concatenated with those in
`[windowStart + winSize, iMax)`.  This definition follows the spec's
sentence and is compared against `neighborhood`, which follows the
source. -/
def neighborhoodSpec (flux : List ℚ) (iWinStart winSize Nn : ℕ) : List ℚ :=
  let iMin := iWinStart - Nn * winSize
  let iMax := min flux.length (iWinStart + (1 + Nn) * winSize)
  (List.range' iMin (iWinStart - iMin)).filterMap (fun j => flux[j]?) ++
    (List.range' (iWinStart + winSize) (iMax - (iWinStart + winSize))).filterMap
      (fun j => flux[j]?)

/-- slidingWindow.py lines 103-118, the body of the scan in `findDip`.
`fwAll` is the whole window (for `fluxWindow[:i]`), the last list argument
is the remaining portion being iterated (enumerate), `i` the current index
and `n` the running count `NloFlux` of consecutive low fluxes.  The Python
for-loop ends without any end-of-window handling, hence the `[]` case
returns `none`.  `tw.getD i 0` models `timeWindow[i]`, always in range in
the calls made by `dipsearch`. -/
def findDipGo (tw : List ℚ) (th : ℚ) (minDur maxDur : ℕ) (lm : ℚ)
    (fwAll : List ℚ) : List ℚ → ℕ → ℕ → Option (ℚ × ℚ)
  | [], _, _ => none
  | f :: rest, i, n =>
    if f < th then findDipGo tw th minDur maxDur lm fwAll rest (i + 1) (n + 1)
    else if minDur ≤ n ∧ n ≤ maxDur then
      some (tw.getD i 0, npMin (fwAll.take i) / lm)
    else findDipGo tw th minDur maxDur lm fwAll rest (i + 1) 0

/-- slidingWindow.py lines 60-120: `findDip(timeWindow, fluxWindow,
minDur, maxDur, localMedian, localMAD, detectionThresh)`.  Returns
`some (t_egress, minFlux)` where Python returns a pair of floats, `none`
where Python returns `(None, None)`. -/
def findDip (timeWindow fluxWindow : List ℚ) (minDur maxDur : ℕ)
    (localMedian localMAD detectionThresh : ℚ) : Option (ℚ × ℚ) :=
  let fluxThresh := min (detectionThresh * localMedian) (localMedian - localMAD)
  if minDur ≤ fluxWindow.countP (fun f => decide (f < fluxThresh)) then
    findDipGo timeWindow fluxThresh minDur maxDur localMedian fluxWindow
      fluxWindow 0 0
  else none

/-- One row of the `dips` Astropy table built in `dipsearch`
(columns EPIC, t_egress, minFlux). -/
structure Row where
  epic : ℤ
  t_egress : ℚ
  minFlux : ℚ
deriving DecidableEq, Repr

/-- The failure modes of `dipsearch`: the two explicit ValueErrors raised
by the parameter check (lines 178-181), the IndexError raised by `t[-1]`
on an empty series (line 188), and the ValueError raised by `xrange` for a
zero step (line 196).  Distinct constructors keep the distinct failure
sites apart. -/
inductive DipError
  | config : String → DipError
  | emptySeries : DipError
  | zeroStep : DipError
deriving DecidableEq, Repr

deriving instance DecidableEq for Except

/-- slidingWindow.py line 188: `cadence = (t[-1] - t[0])/len(t)`. -/
def cadence (t : List ℚ) : ℚ := (t.getLastD 0 - t.headD 0) / (t.length : ℚ)

/-- slidingWindow.py lines 195-207: the sliding loop of `dipsearch` over
the window start indices, threading `prev_t_egress`.  The Python guard
`if t_egress:` is float truthiness, i.e. `te ≠ 0`, and the dedup gate is
`(t_egress - prev_t_egress) > t_minDur`. -/
def dipsearchLoop (epic : ℤ) (t flux : List ℚ) (winSize Nneighb minDur maxDur : ℕ)
    (dth t_minDur : ℚ) : List ℕ → ℚ → List Row
  | [], _ => []
  | i :: rest, prev =>
    let tw := (t.drop i).take winSize
    let fw := (flux.drop i).take winSize
    let lmp := get_localMedian flux i winSize Nneighb
    match findDip tw fw minDur maxDur lmp.1 lmp.2 dth with
    | some (te, mf) =>
      if te ≠ 0 ∧ t_minDur < te - prev then
        ⟨epic, te, mf⟩ ::
          dipsearchLoop epic t flux winSize Nneighb minDur maxDur dth t_minDur rest te
      else dipsearchLoop epic t flux winSize Nneighb minDur maxDur dth t_minDur rest prev
    | none => dipsearchLoop epic t flux winSize Nneighb minDur maxDur dth t_minDur rest prev

/-- slidingWindow.py lines 123-208: `dipsearch(EPICno, photometry,
winSize, stepSize, Nneighb, minDur, maxDur, detectionThresh)`.  The
photometry table is passed as its TIME and FLUX columns.  The window start
indices are those of `xrange(0, len(flux) - winSize, stepSize)`, namely
`0, stepSize, …` strictly below `len(flux) - winSize`. -/
def dipsearch (epic : ℤ) (t flux : List ℚ) (winSize stepSize Nneighb minDur maxDur : ℕ)
    (detectionThresh : ℚ) : Except DipError (List Row) :=
  if maxDur < minDur then
    .error (.config "min dip duration greater than max dip duration")
  else if winSize ≤ maxDur then
    .error (.config "max dip duration greater than or equal window size")
  else if t.length = 0 then .error .emptySeries
  else if stepSize = 0 then .error .zeroStep
  else
    let t_minDur := (minDur : ℚ) * cadence t
    let idxs := List.range' 0 ((flux.length - winSize + stepSize - 1) / stepSize) stepSize
    .ok (dipsearchLoop epic t flux winSize Nneighb minDur maxDur detectionThresh
      t_minDur idxs 0)

/-- The three dispatch branches of `batchjob` (lcps_batch.py lines 84-97):
files ending in `fits`, files ending in `csv`, and everything else
(treated as K2SFF ascii). -/
inductive FileKind
  | fits : FileKind
  | csv : FileKind
  | k2sff : FileKind
deriving DecidableEq, Repr

/-- One entry of the directory listing processed by `batchjob`: its
dispatch kind together with the outcome of ingesting it.  `none` models an
ingestion failure: for a FITS file, `open_fits` (lcps_io.py lines 36-40)
catches the IOError, warns and returns a bare `None`; for csv/K2SFF files
the opener raises and the exception reaches `batchjob`'s blanket
`except`. -/
structure LcFile where
  kind : FileKind
  ingest : Option (ℤ × List ℚ × List ℚ)

/-- lcps_batch.py lines 82-107, the per-file loop of `batchjob`,
accumulating candidate rows (the vstack of the per-target `dips` tables).
For a failing FITS file the statement `EPICno, photometry =
open_fits(path + file)` unpacks the bare `None` returned by `open_fits`
and raises TypeError, which nothing catches, so the whole batch aborts:
that is the `.error` branch.  For failing csv/K2SFF files the
`try/except` warns and continues.  An exception escaping `dipsearch`
(e.g. its parameter check) is likewise uncaught and aborts the batch.
File output and logging are side effects outside this model. -/
def batchjobLoop (winSize stepSize Nneighb minDur maxDur : ℕ) (dth : ℚ) :
    List LcFile → List Row → Except String (List Row)
  | [], acc => .ok acc
  | file :: rest, acc =>
    match file.kind, file.ingest with
    | .fits, none => .error "TypeError: NoneType object is not iterable"
    | .csv, none => batchjobLoop winSize stepSize Nneighb minDur maxDur dth rest acc
    | .k2sff, none => batchjobLoop winSize stepSize Nneighb minDur maxDur dth rest acc
    | _, some (epic, t, flux) =>
      match dipsearch epic t flux winSize stepSize Nneighb minDur maxDur dth with
      | .error _ => .error "uncaught exception from dipsearch"
      | .ok dips => batchjobLoop winSize stepSize Nneighb minDur maxDur dth rest (acc ++ dips)

/-- lcps_batch.py lines 34-123: `batchjob`, restricted to the candidate
accumulation that the claims are about. -/
def batchjob (files : List LcFile) (winSize stepSize Nneighb minDur maxDur : ℕ)
    (dth : ℚ) : Except String (List Row) :=
  batchjobLoop winSize stepSize Nneighb minDur maxDur dth files []

/-- Recognizer for the configuration-check failures of `dipsearch`. -/
def isConfigErr : Except DipError (List Row) → Bool
  | .error (.config _) => true
  | _ => false

/-! ## Helper lemmas -/

theorem filterMap_getElem?_nil {α : Type} (l : List α) :
    ∀ (n a : ℕ), l.length ≤ a → (List.range' a n).filterMap (fun j => l[j]?) = []
  | 0, _, _ => rfl
  | n + 1, a, h => by
    rw [List.range'_succ, List.filterMap_cons_none (List.getElem?_eq_none h)]
    exact filterMap_getElem?_nil l n (a + 1) (Nat.le_succ_of_le h)

theorem drop_take_eq_filterMap {α : Type} (l : List α) (a n : ℕ) :
    (l.drop a).take n = (List.range' a n).filterMap (fun j => l[j]?) := by
  induction n generalizing a with
  | zero => simp
  | succ n ih =>
    rw [List.range'_succ]
    by_cases h : a < l.length
    · rw [List.drop_eq_getElem_cons h, List.take_succ_cons,
        List.filterMap_cons_some (List.getElem?_eq_getElem h), ih]
    · push_neg at h
      rw [List.drop_eq_nil_of_le h, List.take_nil,
        List.filterMap_cons_none (List.getElem?_eq_none h)]
      exact (filterMap_getElem?_nil l n (a + 1) (Nat.le_succ_of_le h)).symm

theorem drop_take_congr {α : Type} (l l' : List α) (a k : ℕ)
    (hlen : l.length = l'.length)
    (h : ∀ j, a ≤ j → j < a + k → j < l.length → l[j]? = l'[j]?) :
    (l.drop a).take k = (l'.drop a).take k := by
  apply List.ext_getElem?
  intro m
  rw [List.getElem?_take, List.getElem?_take]
  by_cases hm : m < k
  · rw [if_pos hm, if_pos hm, List.getElem?_drop, List.getElem?_drop]
    by_cases hin : a + m < l.length
    · exact h (a + m) (Nat.le_add_right a m) (by omega) hin
    · rw [List.getElem?_eq_none (by omega), List.getElem?_eq_none (by omega)]
  · rw [if_neg hm, if_neg hm]

theorem findDipGo_all_low (tw : List ℚ) (th : ℚ) (mnD mxD : ℕ) (lm : ℚ)
    (fwAll : List ℚ) :
    ∀ (b : List ℚ), (∀ x ∈ b, x < th) → ∀ (i n : ℕ),
      findDipGo tw th mnD mxD lm fwAll b i n = none := by
  intro b
  induction b with
  | nil => intro _ i n; rfl
  | cons f rest ih =>
    intro h i n
    simp only [findDipGo]
    rw [if_pos (h f (List.mem_cons_self f rest))]
    exact ih (fun x hx => h x (List.mem_cons_of_mem f hx)) (i + 1) (n + 1)

theorem findDipGo_skip_high (tw : List ℚ) (th : ℚ) (mnD mxD : ℕ) (lm : ℚ)
    (fwAll : List ℚ) (hmn : 1 ≤ mnD) :
    ∀ (a : List ℚ), (∀ x ∈ a, th ≤ x) → ∀ (b : List ℚ) (i : ℕ),
      findDipGo tw th mnD mxD lm fwAll (a ++ b) i 0 =
        findDipGo tw th mnD mxD lm fwAll b (i + a.length) 0 := by
  intro a
  induction a with
  | nil => intro _ b i; simp
  | cons f rest ih =>
    intro h b i
    simp only [List.cons_append, findDipGo, List.append_eq]
    rw [if_neg (not_lt.2 (h f (List.mem_cons_self f rest)))]
    rw [if_neg (by omega : ¬(mnD ≤ 0 ∧ 0 ≤ mxD))]
    rw [ih (fun x hx => h x (List.mem_cons_of_mem f hx)) b (i + 1)]
    congr 1
    simp only [List.length_cons]
    omega

theorem findDipGo_reported (tw : List ℚ) (th : ℚ) (mnD mxD : ℕ) (lm : ℚ)
    (fw : List ℚ) (te mf : ℚ) :
    ∀ (rest : List ℚ) (i n : ℕ), fw.drop i = rest →
      findDipGo tw th mnD mxD lm fw rest i n = some (te, mf) →
      ∃ j, j < fw.length ∧ th ≤ fw.getD j 0 ∧ te = tw.getD j 0 ∧
        mf = npMin (fw.take j) / lm := by
  intro rest
  induction rest with
  | nil =>
    intro i n _ hcontra
    exact absurd hcontra (by simp [findDipGo])
  | cons f rest ih =>
    intro i n hdrop h
    have hdrop' : fw.drop (i + 1) = rest := by
      rw [← List.tail_drop, hdrop]
      rfl
    simp only [findDipGo] at h
    by_cases hf : f < th
    · rw [if_pos hf] at h
      exact ih (i + 1) (n + 1) hdrop' h
    · rw [if_neg hf] at h
      by_cases hq : mnD ≤ n ∧ n ≤ mxD
      · rw [if_pos hq] at h
        have hpair := Option.some.inj h
        rw [Prod.mk.injEq] at hpair
        obtain ⟨h1, h2⟩ := hpair
        have hlt : i < fw.length := by
          by_contra hlen
          push_neg at hlen
          rw [List.drop_eq_nil_of_le hlen] at hdrop
          exact List.cons_ne_nil f rest hdrop.symm
        refine ⟨i, hlt, ?_, h1.symm, h2.symm⟩
        have hfi : fw[i]? = some f := by
          have h0 : (fw.drop i)[0]? = some f := by rw [hdrop]; simp
          rw [List.getElem?_drop] at h0
          simpa using h0
        rw [List.getD_eq_getElem?_getD, hfi]
        exact not_lt.1 hf
      · rw [if_neg hq] at h
        exact ih (i + 1) 0 hdrop' h

theorem dipsearchLoop_chain (epic : ℤ) (t flux : List ℚ) (w Nn mnD mxD : ℕ)
    (dth tmin : ℚ) :
    ∀ (idxs : List ℕ) (prev : ℚ),
      (dipsearchLoop epic t flux w Nn mnD mxD dth tmin idxs prev).Chain'
        (fun a b => tmin < b.t_egress - a.t_egress) ∧
      ∀ r, (dipsearchLoop epic t flux w Nn mnD mxD dth tmin idxs prev).head? = some r →
        tmin < r.t_egress - prev := by
  intro idxs
  induction idxs with
  | nil =>
    intro prev
    exact ⟨List.chain'_nil, by intro r h; exact absurd h (by simp [dipsearchLoop])⟩
  | cons i rest ih =>
    intro prev
    simp only [dipsearchLoop]
    split
    · rename_i te mf heq
      by_cases hg : te ≠ 0 ∧ tmin < te - prev
      · rw [if_pos hg]
        constructor
        · rw [List.chain'_cons']
          exact ⟨fun y hy => (ih te).2 y (Option.mem_def.1 hy), (ih te).1⟩
        · intro r hr
          have h2 : (⟨epic, te, mf⟩ : Row) = r := by simpa using hr
          rw [← h2]
          exact hg.2
      · rw [if_neg hg]
        exact ih prev
    · exact ih prev

theorem headD_le_getLastD_of_sorted (t : List ℚ) (hs : t.Sorted (· ≤ ·)) :
    t.headD 0 ≤ t.getLastD 0 := by
  cases t with
  | nil => exact le_refl 0
  | cons x xs =>
    have hne : x :: xs ≠ [] := List.cons_ne_nil x xs
    have hlast : (x :: xs).getLastD 0 = (x :: xs).getLast hne := by
      rw [List.getLastD_eq_getLast?, List.getLast?_eq_getLast _ hne]
      rfl
    rw [List.headD_cons, hlast]
    rcases List.mem_cons.1 (List.getLast_mem hne) with h | h
    · rw [h]
    · exact (List.sorted_cons.1 hs).1 _ h

/-! ## Claim theorems -/

/-- Claim C4, counterexample.  The claim says the neighborhood consists
exactly of the samples with indices in `[iMin, windowStart)` concatenated
with those in `[windowStart + winSize, iMax)`.  With
`flux = [0, 9, 1, 100]`, `windowStart = 1`, `winSize = 1`,
`neighborCount = 1` (no boundary doubling: 1 ≥ 1 and 1 + 1 ≤ 4) we get
`iMin = 0`, `iMax = min 4 3 = 3`; the claimed neighborhood is
`[0, 1]` (indices 0 and 2), but the code slices `flux[2 : iMax + 1]` and
additionally grabs index 3, producing `[0, 1, 100]` — and the median the
estimator returns is 1, not the claimed neighborhood's median 1/2. -/
theorem neighborhood_extra_sample_counterexample :
    neighborhood [0, 9, 1, 100] 1 1 1 = [0, 1, 100] ∧
    neighborhoodSpec [0, 9, 1, 100] 1 1 1 = [0, 1] ∧
    neighborhood [0, 9, 1, 100] 1 1 1 ≠ neighborhoodSpec [0, 9, 1, 100] 1 1 1 ∧
    (get_localMedian [0, 9, 1, 100] 1 1 1).1 = 1 ∧
    npMedian (neighborhoodSpec [0, 9, 1, 100] 1 1 1) = 1/2 := by
  refine ⟨by decide, by decide, by decide, by decide, by decide⟩

/-- Claim C4, amended: the neighborhood over which `get_localMedian`
computes the median and MAD consists of the samples with indices in
`[iMin, windowStart)` concatenated with those in
`[windowStart + winSize, iMax + 1)` — one index more than the claim's
half-open `[windowStart + winSize, iMax)`, because the source slices
`flux[iWinStart + winSize : iMax + 1]` (any index beyond the end of the
array is dropped, which the `filterMap` over `flux[j]?` makes exact). -/
theorem neighborhood_index_set (flux : List ℚ) (i w n : ℕ) :
    neighborhood flux i w n =
      (List.range' (i - n * w) (i - (i - n * w))).filterMap (fun j => flux[j]?) ++
      (List.range' (i + w)
          (min flux.length (i + (1 + n) * w) + 1 - (i + w))).filterMap
        (fun j => flux[j]?) := by
  simp only [neighborhood]
  rw [drop_take_eq_filterMap, drop_take_eq_filterMap]

/-- Claim C5: `get_localMedian` doubles the supplied neighbour count
exactly when the window starts within one `winSize` of either series edge
(`iWinStart < winSize` on the left, `len(flux) - iWinStart < winSize` on
the right, as signed-integer comparisons); at every other window position
the supplied count is used unchanged. -/
theorem get_localMedian_boundary_doubling (flux : List ℚ) (i w n : ℕ) :
    get_localMedian flux i w n =
      get_localMedianCore flux i w
        (if (i : ℤ) < (w : ℤ) ∨ (flux.length : ℤ) - (i : ℤ) < (w : ℤ) then 2 * n
         else n) := by
  have hiff : (i < w ∨ flux.length < i + w) ↔
      ((i : ℤ) < (w : ℤ) ∨ (flux.length : ℤ) - (i : ℤ) < (w : ℤ)) := by omega
  simp only [get_localMedian, usedNneighb]
  congr 1
  exact if_congr hiff rfl rfl

/-- Claim C6: on the window with times `[0,1,2,3,4,5]` and fluxes
`[1.00, 1.01, 0.99, 0.80, 0.75, 0.95]`, with `minDur = 1`, `maxDur = 5`,
`localMedian = 1`, `localMAD = 0.01` (its default) and
`detectionThresh = 0.90`, the classifier returns egress time `5.0` and
minimum relative flux `0.75`. -/
theorem findDip_concrete_example :
    findDip [0, 1, 2, 3, 4, 5] [1, 101/100, 99/100, 4/5, 3/4, 19/20] 1 5 1
      (1/100) (9/10) = some (5, 3/4) := by
  decide

/-- Claim C7: `dipsearch` fails with one of its two configuration
ValueErrors exactly when `minDur > maxDur` or `maxDur ≥ winSize`; the
check precedes everything else (the equivalence holds for every series,
step size and threshold), and a run on which it fires returns no `.ok`
table, hence no candidate. -/
theorem dipsearch_config_error_iff (epic : ℤ) (t flux : List ℚ)
    (w s Nn mnD mxD : ℕ) (dth : ℚ) :
    (isConfigErr (dipsearch epic t flux w s Nn mnD mxD dth) = true ↔
      mxD < mnD ∨ w ≤ mxD) ∧
    ∀ rows, dipsearch epic t flux w s Nn mnD mxD dth = .ok rows →
      ¬(mxD < mnD ∨ w ≤ mxD) := by
  unfold dipsearch
  by_cases h1 : mxD < mnD
  · simp [h1, isConfigErr]
  · by_cases h2 : w ≤ mxD
    · simp [h1, h2, isConfigErr]
    · by_cases h3 : t.length = 0
      · simp [h1, h2, h3, isConfigErr]
      · by_cases h4 : s = 0
        · simp [h1, h2, h3, h4, isConfigErr]
        · simp [h1, h2, h3, h4, isConfigErr]

/-- Claim C8: the estimator's output is unchanged by arbitrary
modification of the samples strictly inside the window under test: two
flux series of the same length that agree at every index outside
`[iWinStart, iWinStart + winSize)` get the same `(median, MAD)`. -/
theorem get_localMedian_window_exclusion (flux flux' : List ℚ) (i w n : ℕ)
    (hlen : flux.length = flux'.length)
    (h : ∀ j, j < flux.length → (j < i ∨ i + w ≤ j) → flux[j]? = flux'[j]?) :
    get_localMedian flux i w n = get_localMedian flux' i w n := by
  have hN : usedNneighb flux'.length i w n = usedNneighb flux.length i w n := by
    rw [hlen]
  have hnb : neighborhood flux i w (usedNneighb flux.length i w n) =
      neighborhood flux' i w (usedNneighb flux.length i w n) := by
    simp only [neighborhood]
    rw [← hlen]
    congr 1
    · exact drop_take_congr flux flux' _ _ hlen
        (fun j h1 h2 h3 => h j h3 (Or.inl (by omega)))
    · exact drop_take_congr flux flux' _ _ hlen
        (fun j h1 h2 h3 => h j h3 (Or.inr (by omega)))
  simp only [get_localMedian, get_localMedianCore, hN, hnb]

/-- Witness for C8 at a concrete input: the two series differ only at
indices 1 and 2, inside the window `[1, 1 + 2)`, and the estimator's
output agrees. -/
theorem get_localMedian_window_exclusion_witness :
    ([(1 : ℚ), 2, 3, 4, 5].length = [(1 : ℚ), 7, 7, 4, 5].length) ∧
    (∀ j, j < [(1 : ℚ), 2, 3, 4, 5].length → (j < 1 ∨ 1 + 2 ≤ j) →
      [(1 : ℚ), 2, 3, 4, 5][j]? = [(1 : ℚ), 7, 7, 4, 5][j]?) ∧
    get_localMedian [1, 2, 3, 4, 5] 1 2 1 = get_localMedian [1, 7, 7, 4, 5] 1 2 1 :=
  ⟨by decide, by decide,
    get_localMedian_window_exclusion [1, 2, 3, 4, 5] [1, 7, 7, 4, 5] 1 2 1
      (by decide) (by decide)⟩

/-- Claim C1, counterexample.  With threshold
`min (0.9 * 1) (1 - 0.1) = 0.9`, the window `[0.5, 1, 0.8, 0.8, 1]` first
has a run of length 1 (`0.5`, reset because `1 < minDur = 2`), then the
qualifying run at indices 2 and 3 (`0.8, 0.8`), ended by the sample at
index 4.  The minimum flux over that qualifying run is `0.8`, yet the
classifier returns `np.min(fluxWindow[:4]) / localMedian = 0.5`, because
the source takes the minimum over the whole window up to the run-ending
sample, which still contains the earlier discarded run. -/
theorem findDip_run_min_counterexample :
    findDip [0, 1, 2, 3, 4] [1/2, 1, 4/5, 4/5, 1] 2 3 1 (1/10) (9/10) =
      some (4, 1/2) ∧
    npMin (([(1 : ℚ)/2, 1, 4/5, 4/5, 1].drop 2).take 2) / 1 = 4/5 ∧
    (1 : ℚ)/2 ≠ 4/5 := by
  refine ⟨by decide, by decide, by decide⟩

/-- Claim C1, amended: when `findDip` reports a dip, the reported pair is
`(timeWindow[j], np.min(fluxWindow[:j]) / localMedian)` for the index `j`
of the (at-or-above-threshold) sample that ended the qualifying run — the
minimum ranges over the whole window segment before index `j`, not just
over the run itself. -/
theorem findDip_reported_min_over_initial_segment (tw fw : List ℚ)
    (mnD mxD : ℕ) (lm lmad dth te mf : ℚ)
    (h : findDip tw fw mnD mxD lm lmad dth = some (te, mf)) :
    ∃ j, j < fw.length ∧ min (dth * lm) (lm - lmad) ≤ fw.getD j 0 ∧
      te = tw.getD j 0 ∧ mf = npMin (fw.take j) / lm := by
  simp only [findDip] at h
  by_cases hg : mnD ≤ fw.countP (fun f => decide (f < min (dth * lm) (lm - lmad)))
  · rw [if_pos hg] at h
    exact findDipGo_reported tw _ mnD mxD lm fw te mf fw 0 0 (by simp) h
  · rw [if_neg hg] at h
    exact absurd h (by simp)

/-- Witness for the amended C1 at the concrete window of the source's own
doctest. -/
theorem findDip_reported_min_over_initial_segment_witness :
    (findDip [0, 1, 2, 3, 4, 5] [1, 101/100, 99/100, 4/5, 3/4, 19/20] 1 5 1
      (1/100) (9/10) = some (5, 3/4)) ∧
    ∃ j, j < ([(1 : ℚ), 101/100, 99/100, 4/5, 3/4, 19/20] : List ℚ).length ∧
      min ((9/10 : ℚ) * 1) (1 - 1/100) ≤
        ([(1 : ℚ), 101/100, 99/100, 4/5, 3/4, 19/20] : List ℚ).getD j 0 ∧
      (5 : ℚ) = ([(0 : ℚ), 1, 2, 3, 4, 5] : List ℚ).getD j 0 ∧
      (3/4 : ℚ) = npMin (([(1 : ℚ), 101/100, 99/100, 4/5, 3/4, 19/20] : List ℚ).take j) / 1 :=
  ⟨by decide,
    findDip_reported_min_over_initial_segment [0, 1, 2, 3, 4, 5]
      [1, 101/100, 99/100, 4/5, 3/4, 19/20] 1 5 1 (1/100) (9/10) 5 (3/4)
      (by decide)⟩

/-- Claim C2, counterexample.  In the window `[1, 0.5, 0.5]` with
threshold `min (0.9 * 1) (1 - 0.1) = 0.9`, the trailing samples `0.5, 0.5`
form a run of length 2 with `minDur = maxDur = 2`, still in progress when
the end of the window is reached — yet `findDip` returns the no-dip
result, because the source's loop has no end-of-window case. -/
theorem findDip_trailing_run_counterexample :
    findDip [0, 1, 2] [1, 1/2, 1/2] 2 2 1 (1/10) (9/10) = none ∧
    (∀ x ∈ [(1 : ℚ)/2, 1/2], x < min ((9/10 : ℚ) * 1) (1 - 1/10)) ∧
    2 ≤ [(1 : ℚ)/2, 1/2].length ∧ [(1 : ℚ)/2, 1/2].length ≤ 2 := by
  refine ⟨by decide, by decide, by decide, by decide⟩

/-- Claim C2, amended: a run still in progress at the end of the window is
never reported.  If the window splits as `a ++ b` with every sample of `a`
at or above the threshold and every sample of the trailing segment `b`
below it (so the only run is the trailing one, in progress at the end of
the window), then `findDip` returns the no-dip result even when
`minDur ≤ len b ≤ maxDur`; only a run ended inside the window by an
at-or-above-threshold sample is ever reported. -/
theorem findDip_trailing_run_none (tw a b : List ℚ) (mnD mxD : ℕ)
    (lm lmad dth : ℚ) (hmn : 1 ≤ mnD)
    (ha : ∀ x ∈ a, min (dth * lm) (lm - lmad) ≤ x)
    (hb : ∀ x ∈ b, x < min (dth * lm) (lm - lmad))
    (h1 : mnD ≤ b.length) (_h2 : b.length ≤ mxD) :
    findDip tw (a ++ b) mnD mxD lm lmad dth = none := by
  simp only [findDip]
  have h0 : a.countP (fun f => decide (f < min (dth * lm) (lm - lmad))) = 0 :=
    List.countP_eq_zero.2 (fun x hx => by
      simp only [decide_eq_true_eq]
      exact not_lt.2 (ha x hx))
  have hB : b.countP (fun f => decide (f < min (dth * lm) (lm - lmad))) = b.length :=
    List.countP_eq_length.2 (fun x hx => by
      simp only [decide_eq_true_eq]
      exact hb x hx)
  rw [if_pos (by rw [List.countP_append, h0, hB, Nat.zero_add]; exact h1)]
  rw [findDipGo_skip_high tw _ mnD mxD lm (a ++ b) hmn a ha b 0]
  exact findDipGo_all_low tw _ mnD mxD lm (a ++ b) b hb (0 + a.length) 0

/-- Witness for the amended C2 at the concrete window of the C2
counterexample. -/
theorem findDip_trailing_run_none_witness :
    (∀ x ∈ [(1 : ℚ)], min ((9/10 : ℚ) * 1) (1 - 1/10) ≤ x) ∧
    (∀ x ∈ [(1 : ℚ)/2, 1/2], x < min ((9/10 : ℚ) * 1) (1 - 1/10)) ∧
    findDip [0, 1, 2] ([1] ++ [1/2, 1/2]) 2 2 1 (1/10) (9/10) = none :=
  ⟨by decide, by decide,
    findDip_trailing_run_none [0, 1, 2] [1] [1/2, 1/2] 2 2 1 (1/10) (9/10)
      (by decide) (by decide) (by decide) (by decide) (by decide)⟩

/-- Claim C3, counterexample.  In the series with times
`[1, 2, 3, 4, 5, 6, 7, 1000]` and fluxes `[1, 0, 1, 1, 1, 1, 1, 1]`
(irregular cadence), the scan's very first window is
`([1, 2, 3], [1, 0, 1])` with local stats `(1, 0)`; the classifier reports
the dip `(egressTime = 3, minRelativeFlux = 0)` there, with nonzero egress
time — the first dip reported in the series.  Yet `dipsearch` returns an
empty table: the gate compares against the sentinel `prev_t_egress = 0`
and `3 - 0` does not exceed `minSeparation = 1 * 999/8`, so the first
reported dip does not "always pass the gate". -/
theorem dipsearch_first_dip_gate_counterexample :
    get_localMedian [1, 0, 1, 1, 1, 1, 1, 1] 0 3 1 = (1, 0) ∧
    findDip [1, 2, 3] [1, 0, 1] 1 2 1 0 (1/2) = some (3, 0) ∧
    (3 : ℚ) ≠ 0 ∧
    (1 : ℚ) * cadence [1, 2, 3, 4, 5, 6, 7, 1000] = 999/8 ∧
    dipsearch 7 [1, 2, 3, 4, 5, 6, 7, 1000] [1, 0, 1, 1, 1, 1, 1, 1]
      3 1 1 1 2 (1/2) = .ok [] := by
  refine ⟨by decide, by decide, by decide, by decide, by decide⟩

/-- Claim C3, amended: at each window position where the classifier
reports a dip `(te, mf)`, the row is appended to the table if and only if
`te` is nonzero (Python float truthiness of `if t_egress:`) and
`te - prev_t_egress > minSeparation`; and the threaded `prev_t_egress`
starts at the fixed sentinel `0.0` (not at a value below the first
sample's time), so the first reported dip passes the gate only when its
egress time is nonzero and itself exceeds `minSeparation`. -/
theorem dipsearch_gate_characterization :
    (∀ (epic : ℤ) (t flux : List ℚ) (w Nn mnD mxD : ℕ)
      (dth tmin prev te mf : ℚ) (i : ℕ) (rest : List ℕ),
      findDip ((t.drop i).take w) ((flux.drop i).take w) mnD mxD
        (get_localMedian flux i w Nn).1 (get_localMedian flux i w Nn).2 dth =
          some (te, mf) →
      dipsearchLoop epic t flux w Nn mnD mxD dth tmin (i :: rest) prev =
        if te ≠ 0 ∧ tmin < te - prev then
          ⟨epic, te, mf⟩ ::
            dipsearchLoop epic t flux w Nn mnD mxD dth tmin rest te
        else dipsearchLoop epic t flux w Nn mnD mxD dth tmin rest prev) ∧
    (∀ (epic : ℤ) (t flux : List ℚ) (w s Nn mnD mxD : ℕ) (dth : ℚ),
      ¬mxD < mnD → ¬w ≤ mxD → ¬t.length = 0 → ¬s = 0 →
      dipsearch epic t flux w s Nn mnD mxD dth =
        .ok (dipsearchLoop epic t flux w Nn mnD mxD dth
          ((mnD : ℚ) * cadence t)
          (List.range' 0 ((flux.length - w + s - 1) / s) s) 0)) := by
  constructor
  · intro epic t flux w Nn mnD mxD dth tmin prev te mf i rest h
    simp only [dipsearchLoop, h]
  · intro epic t flux w s Nn mnD mxD dth h1 h2 h3 h4
    simp only [dipsearch]
    rw [if_neg h1, if_neg h2, if_neg h3, if_neg h4]

/-- Witness for the amended C3, instantiating both conjuncts on the series
of the C3 counterexample (window position 0, one-element index list). -/
theorem dipsearch_gate_characterization_witness :
    (findDip (([(1 : ℚ), 2, 3, 4, 5, 6, 7, 1000].drop 0).take 3)
        (([(1 : ℚ), 0, 1, 1, 1, 1, 1, 1].drop 0).take 3) 1 2
        (get_localMedian [1, 0, 1, 1, 1, 1, 1, 1] 0 3 1).1
        (get_localMedian [1, 0, 1, 1, 1, 1, 1, 1] 0 3 1).2 (1/2) =
      some (3, 0)) ∧
    (dipsearchLoop 7 [1, 2, 3, 4, 5, 6, 7, 1000] [1, 0, 1, 1, 1, 1, 1, 1]
        3 1 1 2 (1/2) (999/8) [0] 0 =
      if (3 : ℚ) ≠ 0 ∧ (999/8 : ℚ) < 3 - 0 then
        ⟨7, 3, 0⟩ :: dipsearchLoop 7 [1, 2, 3, 4, 5, 6, 7, 1000]
          [1, 0, 1, 1, 1, 1, 1, 1] 3 1 1 2 (1/2) (999/8) [] 3
      else dipsearchLoop 7 [1, 2, 3, 4, 5, 6, 7, 1000]
        [1, 0, 1, 1, 1, 1, 1, 1] 3 1 1 2 (1/2) (999/8) [] 0) ∧
    (dipsearch 7 [1, 2, 3, 4, 5, 6, 7, 1000] [1, 0, 1, 1, 1, 1, 1, 1]
        3 1 1 1 2 (1/2) =
      .ok (dipsearchLoop 7 [1, 2, 3, 4, 5, 6, 7, 1000] [1, 0, 1, 1, 1, 1, 1, 1]
        3 1 1 2 (1/2) (((1 : ℕ) : ℚ) * cadence [1, 2, 3, 4, 5, 6, 7, 1000])
        (List.range' 0 ((([(1 : ℚ), 0, 1, 1, 1, 1, 1, 1] : List ℚ).length - 3 + 1 - 1) / 1) 1) 0)) :=
  ⟨by decide,
    dipsearch_gate_characterization.1 7 [1, 2, 3, 4, 5, 6, 7, 1000]
      [1, 0, 1, 1, 1, 1, 1, 1] 3 1 1 2 (1/2) (999/8) 0 3 0 0 [] (by decide),
    dipsearch_gate_characterization.2 7 [1, 2, 3, 4, 5, 6, 7, 1000]
      [1, 0, 1, 1, 1, 1, 1, 1] 3 1 1 1 2 (1/2)
      (by decide) (by decide) (by decide) (by decide)⟩

/-- Claim C9: the code aborts a whole batch on a failing FITS ingestion.
`open_fits` catches the IOError, warns, and returns a bare `None`
(lcps_io.py lines 36-40); `batchjob` then unpacks that `None` as a pair
with no surrounding `try`, raising an uncaught TypeError (lcps_batch.py
line 85), so the remaining targets are never processed — contradicting
the claim that an ingestion failure never aborts the run.  The csv and
K2SFF branches do skip and continue, as the third conjunct shows. -/
theorem batchjob_fits_failure_aborts :
    batchjob [⟨.fits, none⟩] 10 1 1 2 5 (995/1000) =
      .error "TypeError: NoneType object is not iterable" ∧
    batchjob [⟨.fits, none⟩, ⟨.csv, some (5, [0, 1, 2], [1, 1, 1])⟩]
        10 1 1 2 5 (995/1000) =
      .error "TypeError: NoneType object is not iterable" ∧
    batchjob [⟨.csv, none⟩, ⟨.k2sff, none⟩] 10 1 1 2 5 (995/1000) = .ok [] := by
  refine ⟨rfl, rfl, rfl⟩

/-- Claim C10: for a series with nondecreasing times (the data-model
invariant), successive rows of the table returned by `dipsearch` have
strictly increasing `t_egress`, and each exceeds its predecessor by more
than `minDur * cadence`. -/
theorem dipsearch_output_separation (epic : ℤ) (t flux : List ℚ)
    (w s Nn mnD mxD : ℕ) (dth : ℚ) (rows : List Row)
    (hsort : t.Sorted (· ≤ ·))
    (h : dipsearch epic t flux w s Nn mnD mxD dth = .ok rows) :
    rows.Chain' (fun a b => a.t_egress < b.t_egress ∧
      (mnD : ℚ) * cadence t < b.t_egress - a.t_egress) := by
  simp only [dipsearch] at h
  by_cases h1 : mxD < mnD
  · rw [if_pos h1] at h; exact absurd h (by simp)
  rw [if_neg h1] at h
  by_cases h2 : w ≤ mxD
  · rw [if_pos h2] at h; exact absurd h (by simp)
  rw [if_neg h2] at h
  by_cases h3 : t.length = 0
  · rw [if_pos h3] at h; exact absurd h (by simp)
  rw [if_neg h3] at h
  by_cases h4 : s = 0
  · rw [if_pos h4] at h; exact absurd h (by simp)
  rw [if_neg h4] at h
  have hrows : rows = dipsearchLoop epic t flux w Nn mnD mxD dth
      ((mnD : ℚ) * cadence t) (List.range' 0 ((flux.length - w + s - 1) / s) s) 0 :=
    (Except.ok.inj h).symm
  have htmin : 0 ≤ (mnD : ℚ) * cadence t := by
    apply mul_nonneg (by positivity)
    unfold cadence
    apply div_nonneg
    · have := headD_le_getLastD_of_sorted t hsort
      linarith
    · positivity
  rw [hrows]
  refine List.Chain'.imp (fun a b hr => ⟨by linarith, hr⟩) ?_
  exact (dipsearchLoop_chain epic t flux w Nn mnD mxD dth
    ((mnD : ℚ) * cadence t) (List.range' 0 ((flux.length - w + s - 1) / s) s) 0).1

/-- Witness for C10 on a 12-sample series with two well-separated dips:
the returned table has two rows, with egress times 2 and 8. -/
theorem dipsearch_output_separation_witness :
    List.Sorted (· ≤ ·) ([0, 1, 2, 3, 4, 5, 6, 7, 8, 9, 10, 11] : List ℚ) ∧
    (dipsearch 7 [0, 1, 2, 3, 4, 5, 6, 7, 8, 9, 10, 11]
        [1, 0, 1, 1, 1, 1, 1, 0, 1, 1, 1, 1] 3 1 1 1 2 (1/2) =
      .ok [⟨7, 2, 0⟩, ⟨7, 8, 0⟩]) ∧
    List.Chain' (fun (a b : Row) => a.t_egress < b.t_egress ∧
        ((1 : ℕ) : ℚ) * cadence [0, 1, 2, 3, 4, 5, 6, 7, 8, 9, 10, 11] <
          b.t_egress - a.t_egress)
      [⟨7, 2, 0⟩, ⟨7, 8, 0⟩] :=
  ⟨by decide, by decide,
    dipsearch_output_separation 7 [0, 1, 2, 3, 4, 5, 6, 7, 8, 9, 10, 11]
      [1, 0, 1, 1, 1, 1, 1, 0, 1, 1, 1, 1] 3 1 1 1 2 (1/2)
      [⟨7, 2, 0⟩, ⟨7, 8, 0⟩] (by decide) (by decide)⟩

end Lcps
